import Mathlib

/-!
Shallow embedding of the variant / annotation translation engine of
ga4gh/datamodel/variants.py, together with theorems settling the frozen
claims about it.  Python functions become Lean functions; the mutable
build of a variant set becomes explicit state passing over a state
record; fallible Python code (raise) returns Except.  External
collaborators (the pysam file reader, hashlib, the stdlib random module,
the compound identifier codec, the ontology lookup) are modelled as
explicit parameters or injective deterministic stand-ins, as documented
at each definition.
-/

set_option linter.unusedVariables false

deriving instance DecidableEq for Except

/-- isUnspecified from variants.py: true when the value is None (here: none)
or the empty string. -/
def isUnspecified (s : Option String) : Bool :=
  s == some "" || s == none

/-- Stand-in for hashlib.md5(x).hexdigest() (external library).  The spec
fixes only determinism and uniqueness of the digest, never its bytes, so the
digest is modelled as a deterministic injective function of the input
string. -/
def md5Hex (s : String) : String := "md5(" ++ s ++ ")"

/-- Model of the Python 2 str(tuple(xs)) rendering used by hashVariant:
an injective rendering of the list of alternate bases, keeping the
distinction between a one element tuple (trailing comma) and longer
tuples.  The exact quoting of Python repr is modelled with angle
brackets. -/
def pyTupleRepr (xs : List String) : String :=
  match xs with
  | [x] => "(<" ++ x ++ ">,)"
  | _ => "(" ++ String.intercalate ", " (xs.map (fun x => "<" ++ x ++ ">")) ++ ")"

/-- Model of the Python list repr used when formatting the effect term list
inside getTranscriptEffectId. -/
def pyListRepr (xs : List String) : String :=
  "[" ++ String.intercalate ", " (xs.map (fun x => "<" ++ x ++ ">")) ++ "]"

/-- Modelled from the spec: the compound identifier codec (section 6, an
external collaborator consumed and not reimplemented by this core) encodes a
sequence of discriminant fields into an opaque stable string; modelled as an
injective join. -/
def compoundIdStr (parts : List String) : String :=
  String.intercalate "|cid|" parts

/-- Model of the stdlib random.Random collaborator: a deterministic state
machine.  seedFn models seed(n) producing a fresh state from an integer;
next models random() producing a rational draw and the successor state.
The concrete Mersenne Twister stream is external to the repository, so
theorems quantify over the machine or instantiate it with concrete
deterministic machines. -/
structure PyRandom where
  seedFn : Nat → Nat
  next : Nat → Rat × Nat

/-- int(q * n) for a rational q and a natural n: the product q * n is the
fraction (q.num * n) / q.den, and the Python int() builtin truncates it
toward zero.  Computed on the numerator and denominator directly. -/
def pyIndex (q : Rat) (n : Nat) : Int :=
  let m : Int := q.num * (n : Int)
  if 0 ≤ m then ((m.toNat / q.den : Nat) : Int)
  else -(((((-m).toNat) / q.den : Nat) : Int))

/-- Python 2 random.choice(seq) = seq[int(self.random() * len(seq))]:
one draw, truncated index.  dflt is returned on an out of range index,
which cannot happen for draws in [0,1). -/
def pyChoice {α : Type} (rng : PyRandom) (st : Nat) (seq : List α) (dflt : α) : α × Nat :=
  let r := rng.next st
  (seq.getD (pyIndex r.fst seq.length).toNat dflt, r.snd)

/-- GA4GH Call protocol object (the fields set by this module). -/
structure GACall where
  callSetId : String
  callSetName : String := ""
  sampleId : String := ""
  genotype : List Nat
  phaseset : Option String := none
  genotypeLikelihood : List Int
  info : List (String × List String) := []
deriving DecidableEq

/-- GA4GH Variant protocol object (the fields set by this module;
creation and update timestamps are wall clock bookkeeping outside the
translation logic and are not modelled). -/
structure GAVariant where
  id : String
  variantSetId : String
  names : List String
  referenceName : String
  start : Nat
  stop : Nat
  referenceBases : String
  alternateBases : List String
  calls : List GACall
  info : List (String × List String)
deriving DecidableEq

def dummyVariant : GAVariant :=
  { id := "", variantSetId := "", names := [], referenceName := "", start := 0,
    stop := 0, referenceBases := "", alternateBases := [], calls := [], info := [] }

/-- AbstractVariantSet.hashVariant: md5 of the reference bases concatenated
with the printable tuple form of the alternate bases. -/
def hashVariant (v : GAVariant) : String :=
  md5Hex (v.referenceBases ++ pyTupleRepr v.alternateBases)

/-- AbstractVariantSet.getVariantId: compound id of the set id, reference
name, start and the content hash. -/
def getVariantIdOf (setId : String) (v : GAVariant) : String :=
  compoundIdStr [setId, v.referenceName, toString v.start, hashVariant v]

/-- SimulatedVariantSet constructor data: seed, number of simulated call
sets, and variant density. -/
structure SimulatedVariantSet where
  setId : String
  randomSeed : Nat
  numCalls : Nat
  variantDensity : Rat

/-- The call set names registered by the SimulatedVariantSet constructor:
simCallSet_j for j below numCalls, in registration order. -/
def simCallSetNames (s : SimulatedVariantSet) : List String :=
  (List.range s.numCalls).map (fun j => "simCallSet_" ++ toString j)

/-- AbstractVariantSet.getCallSetId for a sample name of this set. -/
def simCallSetId (s : SimulatedVariantSet) (name : String) : String :=
  compoundIdStr [s.setId, name]

/-- The per call set loop body of SimulatedVariantSet.generateVariant: one
genotype choice among [0,1], [1,0], [1,1] per registered call set, with
placeholder likelihoods. -/
def genSimCalls (s : SimulatedVariantSet) (rng : PyRandom) :
    List String → Nat → List GACall × Nat
  | [], st => ([], st)
  | n :: rest, st =>
    let c := pyChoice rng st [[0, 1], [1, 0], [1, 1]] [0, 1]
    let tail := genSimCalls s rng rest c.snd
    ({ callSetId := simCallSetId s n, genotype := c.fst,
       genotypeLikelihood := [-100, -100, -100] } :: tail.fst, tail.snd)

/-- SimulatedVariantSet.generateVariant: a single base substitution at the
given position, drawn from the supplied generator state: a uniform
reference base, a different uniform alternate base, then one genotype per
call set, then the derived id. -/
def generateVariant (s : SimulatedVariantSet) (rng : PyRandom) (ref : String)
    (pos : Nat) (st : Nat) : GAVariant × Nat :=
  let bases := ["A", "C", "G", "T"]
  let rb := pyChoice rng st bases "A"
  let ab := pyChoice rng rb.snd (bases.filter (fun b => b ≠ rb.fst)) "A"
  let cs := genSimCalls s rng (simCallSetNames s) ab.snd
  let v0 : GAVariant :=
    { id := "", variantSetId := s.setId, names := [], referenceName := ref,
      start := pos, stop := pos + 1, referenceBases := rb.fst,
      alternateBases := [ab.fst], calls := cs.fst, info := [] }
  ({ v0 with id := getVariantIdOf s.setId v0 }, cs.snd)

/-- The while loop of SimulatedVariantSet.getVariants, with the remaining
number of positions as fuel: one density draw per position from the running
stream; on an emitted position the generator is reseeded with
randomSeed + position before generating, and the stream continues from the
post generation state. -/
def simGetVariantsGo (s : SimulatedVariantSet) (rng : PyRandom) (ref : String) :
    Nat → Nat → Nat → List GAVariant
  | _, 0, _ => []
  | i, Nat.succ fuel, st =>
    let r := rng.next st
    if r.fst < s.variantDensity then
      let g := generateVariant s rng ref i (rng.seedFn (s.randomSeed + i))
      g.fst :: simGetVariantsGo s rng ref (i + 1) fuel g.snd
    else
      simGetVariantsGo s rng ref (i + 1) fuel r.snd

/-- SimulatedVariantSet.getVariants over the half open range
[startPos, endPos): seed the stream with the base seed, then run the per
position loop. -/
def simGetVariants (s : SimulatedVariantSet) (rng : PyRandom) (ref : String)
    (startPos endPos : Nat) : List GAVariant :=
  simGetVariantsGo s rng ref startPos (endPos - startPos) (rng.seedFn s.randomSeed)

/-- SimulatedVariantSet.getVariant: point lookup by compound id components;
reseeds with randomSeed + start and regenerates.  The md5 component of the
compound id is accepted but never consulted. -/
def simGetVariant (s : SimulatedVariantSet) (rng : PyRandom) (refName : String)
    (start : Nat) (md5 : String) : GAVariant :=
  (generateVariant s rng refName start (rng.seedFn (s.randomSeed + start))).fst

/-- Error kinds raised by the embedded code, mirroring the exception
classes (ga4gh.exceptions) and stock Python exceptions used in
variants.py. -/
inductive Err where
  | notIndexed (url : String)
  | overlapping (url chrom : String)
  | valueError (msg : String)
  | indexError
  | keyError (k : String)
  | inconsistentMetadata (fname : String)
  | inconsistentCallSets (fname : String)
  | objectNotFound
  | attributeError
deriving DecidableEq

/-- Decimal value of a digit list. -/
def digitsVal (ds : List Char) : Nat :=
  ds.foldl (fun acc c => 10 * acc + (c.toNat - Char.toNat '0')) 0

/-- True on the ascii whitespace stripped by Python. -/
def pyIsSpace (c : Char) : Bool :=
  c = ' ' ∨ c = '\t' ∨ c = '\n' ∨ c = '\r'

/-- The splitting loop behind the Python str.split(sep) model. -/
def pySplitGo (sep : Char) : List Char → List Char → List String
  | [], acc => [String.mk acc.reverse]
  | c :: rest, acc =>
    if c = sep then String.mk acc.reverse :: pySplitGo sep rest []
    else pySplitGo sep rest (c :: acc)

/-- Python str.split(sep) for a one character separator (every separator
in variants.py is a single character): split on each occurrence, keeping
empty fields; the empty string yields one empty field. -/
def pySplit (sep : Char) (s : String) : List String :=
  pySplitGo sep s.toList []

/-- Model of the Python int() builtin on strings: surrounding whitespace is
ignored, an optional sign precedes a nonempty digit run; anything else
raises ValueError. -/
def pyInt (s : String) : Except Err Int :=
  let t := (((s.toList.dropWhile pyIsSpace).reverse.dropWhile pyIsSpace).reverse)
  let core := match t with
    | '-' :: rest => rest
    | '+' :: rest => rest
    | other => other
  if core ≠ [] ∧ core.all Char.isDigit then
    let n : Int := digitsVal core
    .ok (if t.head? = some '-' then -n else n)
  else
    .error (.valueError ("invalid literal for int: " ++ s))

/-- Values carried by pysam record and call info fields: numeric tuples,
strings, or single numbers. -/
inductive PyVal where
  | pylist (xs : List Int)
  | pystr (s : String)
  | pyint (n : Int)
deriving DecidableEq

/-- The function _encodeValue from variants.py: lists and tuples map to the list of
printed elements, anything else to a one element list; applied below only
to non list values after the string split case is handled at the call
site. -/
def encodeValue (v : PyVal) : List String :=
  match v with
  | .pylist xs => xs.map toString
  | .pystr s => [s]
  | .pyint n => [toString n]

/-- The function _encodeValue applied to a possibly absent value (str(None) prints
None). -/
def encodeValueOpt (v : Option PyVal) : List String :=
  match v with
  | some w => encodeValue w
  | none => ["None"]

/-- Python dict assignment on an association list: overwrite in place or
append. -/
def alistInsert {β : Type} (k : String) (v : β) : List (String × β) → List (String × β)
  | [] => [(k, v)]
  | (k0, v0) :: rest => if k0 = k then (k, v) :: rest else (k0, v0) :: alistInsert k v rest

/-- One genotype column of a pysam record. -/
structure PysamCall where
  alleleIndices : List Nat
  phased : Bool
  items : List (String × Option PyVal)
deriving DecidableEq

/-- list(value) for a GL value (genotype likelihood tuples are numeric in
pysam). -/
def glList (v : PyVal) : List Int :=
  match v with
  | .pylist xs => xs
  | _ => []

/-- HtslibVariantSet._convertGaCall: GL becomes the likelihood list, GT is
dropped, every other key is encoded into the info map; a phased call gets
the printed boolean as its phase set. -/
def convertGaCall (callSetId sampleName : String) (pc : PysamCall) : GACall :=
  let z := pc.items.foldl
    (fun (acc : List Int × List (String × List String)) kv =>
      if kv.fst = "GL" ∧ kv.snd ≠ none then
        (glList (kv.snd.getD (.pyint 0)), acc.snd)
      else if kv.fst ≠ "GT" then
        (acc.fst, alistInsert kv.fst (encodeValueOpt kv.snd) acc.snd)
      else acc)
    ([], [])
  { callSetId := callSetId, callSetName := sampleName, sampleId := sampleName,
    genotype := pc.alleleIndices,
    phaseset := if pc.phased then some "True" else none,
    info := z.snd, genotypeLikelihood := z.fst }

/-- One raw variant record as handed out by the pysam reader. -/
structure VRecord where
  contig : String
  rid : Option String
  start : Nat
  stop : Nat
  ref : String
  alts : Option (List String)
  info : List (String × Option PyVal)
  samples : List (String × PysamCall)
deriving DecidableEq

/-- One FORMAT or INFO declaration of a VCF header. -/
structure VcfFieldDef where
  name : String
  ftype : String
  number : String
  description : String
deriving DecidableEq

/-- One free text header record (pysam header.records). -/
structure VcfHeaderRecord where
  rtype : String
  key : String
  value : String
deriving DecidableEq

/-- One indexed variant file as exposed by the pysam collaborator:
its index declared contigs, the records per contig, and the header
content used by this module. -/
structure VcfFile where
  filename : String
  hasIndex : Bool
  indexChroms : List String
  recs : List (String × List VRecord)
  version : String
  formats : List VcfFieldDef
  infos : List VcfFieldDef
  headerRecords : List VcfHeaderRecord
  samples : List String
deriving DecidableEq

/-- pysam VariantFile.fetch(chrom): every record of the file on that
contig. -/
def fetchChrom (f : VcfFile) (chrom : String) : List VRecord :=
  match f.recs.lookup chrom with
  | some rs => rs
  | none => []

/-- pysam VariantFile.fetch(chrom, start, stop): the records on the contig
overlapping the half open interval [start, stop). -/
def fetchRange (f : VcfFile) (chrom : String) (start stop : Nat) : List VRecord :=
  (fetchChrom f chrom).filter (fun r => r.start < stop ∧ start < r.stop)

/-- Modelled from the spec: the reference name sanitizer
(PysamDatamodelMixin.sanitizeVariantFileFetch, repository code outside
src/ and an external collaborator per section 6 of the spec) returns a
normalized name and possibly adjusted bounds; modelled as the identity
normalization. -/
def sanitizeVariantFileFetch (chrom : String) (start stop : Nat) : String × Nat × Nat :=
  (chrom, start, stop)

/-- One typed metadata entry of a variant set. -/
structure VariantSetMetadata where
  key : String
  value : String
  mtype : String
  number : String
  description : String
  mid : String
deriving DecidableEq

/-- Python str.strip applied with the double quote character. -/
def stripQuotes (s : String) : String :=
  String.mk (((s.toList.dropWhile (fun c => c = '"')).reverse.dropWhile
    (fun c => c = '"')).reverse)

/-- buildMetadata inside _getMetadataFromVcf, with the id always derived
from the set compound id and the key. -/
def buildMetadataEntry (setId key mtype number value description : String) :
    VariantSetMetadata :=
  { key := key, value := value, mtype := mtype, number := number,
    description := description,
    mid := compoundIdStr [setId, "metadata:" ++ key] }

/-- The FORMAT or INFO part of _getMetadataFromVcf: one entry per declared
field except FORMAT.GT, with the description stripped of quotes. -/
def metaFromDefs (setId pfx : String) (defs : List VcfFieldDef) :
    List VariantSetMetadata :=
  (defs.filter (fun d => pfx ++ "." ++ d.name ≠ "FORMAT.GT")).map
    (fun d => buildMetadataEntry setId (pfx ++ "." ++ d.name) d.ftype d.number ""
      (stripQuotes d.description))

/-- HtslibVariantSet._getMetadataFromVcf: the version entry followed by the
FORMAT entries then the INFO entries. -/
def getMetadataFromVcf (setId : String) (f : VcfFile) : List VariantSetMetadata :=
  buildMetadataEntry setId "version" "String" "1" f.version "" ::
    (metaFromDefs setId "FORMAT" f.formats ++ metaFromDefs setId "INFO" f.infos)

def ANNOTATIONS_VEP_V82 : String := "VEP_v82"
def ANNOTATIONS_VEP_V77 : String := "VEP_v77"
def ANNOTATIONS_SNPEFF : String := "SNPEff"

/-- The mutable instance state of an HtslibVariantSet during and after a
build: the chromosome routing table, the established metadata, the call
set registry, and the inferred annotation pipeline. -/
structure HtsState where
  setId : String
  chromFileMap : List (String × String × String)
  metadata : Option (List VariantSetMetadata)
  callSetNames : List String
  annType : Option String
deriving DecidableEq

def initState (setId : String) : HtsState :=
  { setId := setId, chromFileMap := [], metadata := none, callSetNames := [],
    annType := none }

/-- One iteration of the chromosome claiming loop of
_populateFromVariantFile: a populated contig already present in the routing
table raises OverlappingVcfException; the table write itself sits outside
the emptiness test, exactly as in the source. -/
def chromStep (f : VcfFile) (dataUrl indexFile : String) (st : HtsState)
    (chromRaw : String) : Except Err HtsState :=
  let chrom := (sanitizeVariantFileFetch chromRaw 0 0).fst
  if fetchChrom f chrom ≠ [] ∧ (st.chromFileMap.lookup chrom).isSome then
    .error (.overlapping dataUrl chrom)
  else
    .ok { st with chromFileMap := alistInsert chrom (dataUrl, indexFile) st.chromFileMap }

/-- HtslibVariantSet._updateMetadata: the first file establishes the
metadata; afterwards the field is left untouched. -/
def updateMetadata (st : HtsState) (f : VcfFile) : HtsState :=
  if st.metadata = none then
    { st with metadata := some (getMetadataFromVcf st.setId f) }
  else st

/-- HtslibVariantSet._updateCallSetIds: samples are registered only while
the call set registry is empty. -/
def updateCallSetIds (st : HtsState) (f : VcfFile) : HtsState :=
  if st.callSetNames = [] then { st with callSetNames := f.samples } else st

/-- The word collecting loop behind the Python str.split() model. -/
def pyWordsGo : List Char → List Char → List String
  | [], acc => if acc = [] then [] else [String.mk acc.reverse]
  | c :: rest, acc =>
    if pyIsSpace c then
      if acc = [] then pyWordsGo rest []
      else String.mk acc.reverse :: pyWordsGo rest []
    else pyWordsGo rest (c :: acc)

/-- Python str.split() with no argument: split on whitespace runs,
dropping empty fields. -/
def pyWhitespaceSplit (s : String) : List String :=
  pyWordsGo s.toList []

/-- One header record step of the annotation type inference loop in
_updateVariantAnnotationSets. -/
def inferAnnTypeStep (acc : Option String) (r : VcfHeaderRecord) :
    Except Err (Option String) :=
  if r.rtype = "GENERIC" then
    if r.key = "SnpEffVersion" then .ok (some ANNOTATIONS_SNPEFF)
    else if r.key = "VEP" then
      match (pyWhitespaceSplit r.value).head? with
      | none => .error .indexError
      | some version =>
        if version = "v82" then .ok (some ANNOTATIONS_VEP_V82)
        else if version = "v77" then .ok (some ANNOTATIONS_VEP_V77)
        else .error (.valueError ("Unsupported VEP version " ++ version))
    else .ok acc
  else .ok acc

/-- HtslibVariantSet._updateVariantAnnotationSets: on an unannotated set,
infer the pipeline from the header records; an annotation bearing info
field with no recognized signature is an error; a recognized signature
attaches the (first and only) annotation set. -/
def updateVariantAnnSets (st : HtsState) (f : VcfFile) (dataUrl : String) :
    Except Err HtsState :=
  if st.annType ≠ none then
    .ok st
  else
    match f.headerRecords.foldlM inferAnnTypeStep none with
    | .error e => .error e
    | .ok none =>
      if f.infos.any (fun d => d.name = "CSQ") ∨ f.infos.any (fun d => d.name = "ANN") then
        .error (.valueError ("Unsupported annotations in " ++ dataUrl))
      else
        .ok st
    | .ok (some ty) => .ok { st with annType := some ty }

/-- HtslibVariantSet._populateFromVariantFile: require an index, claim the
indexed contigs, then update metadata, call sets and annotation sets. -/
def populateFromVariantFile (st : HtsState) (f : VcfFile)
    (dataUrl indexFile : String) : Except Err HtsState :=
  if f.hasIndex = false then
    .error (.notIndexed dataUrl)
  else
    match f.indexChroms.foldlM (chromStep f dataUrl indexFile) st with
    | .error e => .error e
    | .ok st1 =>
      updateVariantAnnSets (updateCallSetIds (updateMetadata st1 f) f) f dataUrl

/-- One (data url, index file) input pair together with the file the
reader opens for it. -/
structure FileInput where
  file : VcfFile
  dataUrl : String
  indexFile : String
deriving DecidableEq

/-- HtslibVariantSet.populateFromFile: process the file pairs in order. -/
def populateFromFile (st : HtsState) (files : List FileInput) : Except Err HtsState :=
  files.foldlM
    (fun s fi => populateFromVariantFile s fi.file fi.dataUrl fi.indexFile) st

/-- HtslibVariantSet._checkMetadata (used by the checkConsistency audit):
an established metadata list differing from the file derived one raises
InconsistentMetaDataException. -/
def checkMetadataStep (st : HtsState) (f : VcfFile) : Except Err Unit :=
  if st.metadata ≠ none ∧ st.metadata ≠ some (getMetadataFromVcf st.setId f) then
    .error (.inconsistentMetadata f.filename)
  else .ok ()

/-- AbstractVariantSet.getCallSetId for a sample of this set. -/
def getCallSetIdOf (setId sample : String) : String :=
  compoundIdStr [setId, sample]

/-- Python set equality on two string lists. -/
def eqAsSets (xs ys : List String) : Bool :=
  xs.all (fun x => x ∈ ys) && ys.all (fun y => y ∈ xs)

/-- HtslibVariantSet._checkCallSetIds (used by the checkConsistency audit). -/
def checkCallSetIdsStep (st : HtsState) (f : VcfFile) : Except Err Unit :=
  if st.callSetNames ≠ [] then
    if eqAsSets (f.samples.map (getCallSetIdOf st.setId))
        (st.callSetNames.map (getCallSetIdOf st.setId)) then .ok ()
    else .error (.inconsistentCallSets f.filename)
  else .ok ()

/-- HtslibVariantSet.checkConsistency: re open every claimed file and re
validate metadata and call sets on every populated contig; env resolves a
(data url, index file) pair to the file the reader returns. -/
def checkConsistency (st : HtsState) (env : String → String → VcfFile) :
    Except Err Unit :=
  st.chromFileMap.foldlM
    (fun _ entry => do
      let f := env entry.snd.fst entry.snd.snd
      f.indexChroms.foldlM
        (fun _ chromRaw => do
          let chrom := (sanitizeVariantFileFetch chromRaw 0 0).fst
          if fetchChrom f chrom ≠ [] then do
            checkMetadataStep st f
            checkCallSetIdsStep st f
          else .ok ()) ()) ()

/-- The info value conversion inside convertVariant: a string value is
split on commas, then _encodeValue is applied. -/
def convertInfoValue (v : Option PyVal) : List String :=
  match v with
  | some (.pystr s) => pySplit ',' s
  | some (.pylist xs) => xs.map toString
  | some (.pyint n) => [toString n]
  | none => []

/-- HtslibVariantSet.convertVariant: pure mapping from one raw record to a
canonical variant, with calls for the requested call sets only; a sample
column missing from the record is a KeyError. -/
def convertVariant (st : HtsState) (r : VRecord) (callSetNames : List String) :
    Except Err GAVariant :=
  let names := match r.rid with
    | some i => pySplit ';' i
    | none => []
  let info := (r.info.filter (fun kv => kv.snd ≠ none)).foldl
    (fun acc kv => alistInsert kv.fst (convertInfoValue kv.snd) acc) []
  match callSetNames.foldlM
      (fun (acc : List GACall) sampleName =>
        (match r.samples.lookup sampleName with
         | none => .error (.keyError sampleName)
         | some pc =>
           .ok (acc ++ [convertGaCall (getCallSetIdOf st.setId sampleName) sampleName pc])
         : Except Err (List GACall)))
      [] with
  | .error e => .error e
  | .ok calls =>
    let v0 : GAVariant :=
      { id := "", variantSetId := st.setId, names := names, referenceName := r.contig,
        start := r.start, stop := r.stop, referenceBases := r.ref,
        alternateBases := r.alts.getD [], calls := calls, info := info }
    .ok { v0 with id := getVariantIdOf st.setId v0 }

/-- The record scanning loop of HtslibVariantSet.getVariant: convert each
fetched record, return on the first record at the requested start with the
requested content hash, fail once a scanned start exceeds the requested
one or the cursor is exhausted. -/
def getVariantScan (st : HtsState) (start : Nat) (md5 : String) :
    List VRecord → Except Err GAVariant
  | [] => .error .objectNotFound
  | r :: rs =>
    match convertVariant st r st.callSetNames with
    | .error e => .error e
    | .ok v =>
      if r.start = start ∧ md5 = hashVariant v then .ok v
      else if start < r.start then .error .objectNotFound
      else getVariantScan st start md5 rs

/-- HtslibVariantSet.getVariant: resolve the owning file through the
routing table, fetch the single position, scan. -/
def getVariant (st : HtsState) (env : String → String → VcfFile) (refName : String)
    (start : Nat) (md5 : String) : Except Err GAVariant :=
  match st.chromFileMap.lookup refName with
  | none => .error .objectNotFound
  | some fk =>
    let f := env fk.fst fk.snd
    let t := sanitizeVariantFileFetch refName start (start + 1)
    getVariantScan st start md5 (fetchRange f t.fst t.snd.fst t.snd.snd)

/-- A GA4GH AlleleLocation (the fields set by this module). -/
structure AlleleLoc where
  start : Int
  referenceSequence : Option String := none
  alternateSequence : Option String := none
deriving DecidableEq

/-- A GA4GH OntologyTerm for Sequence Ontology. -/
structure OntTerm where
  term : String
  tid : String
  ontologySource : String
deriving DecidableEq

/-- The HGVSAnnotation protocol object: the genomic / transcript / protein
triple, each optionally absent. -/
structure HgvsAnn where
  genomic : Option String
  transcript : Option String
  protein : Option String
deriving DecidableEq

/-- A GA4GH TranscriptEffect (the fields set by this module). -/
structure TranscriptEff where
  alternateBases : String
  effects : List OntTerm
  featureId : String
  hgvsAnn : HgvsAnn
  cDNALocation : Option AlleleLoc := none
  CDSLocation : Option AlleleLoc := none
  proteinLocation : Option AlleleLoc := none
  analysisResults : List String := []
  id : String := ""
deriving DecidableEq

/-- HtslibVariantAnnotationSet.convertLocation: an unspecified position
yields nothing; a position with a slash yields a location at the 0 based
integer part; int() on a non numeric part is a ValueError. -/
def convertLocation (pos : Option String) : Except Err (Option AlleleLoc) :=
  if isUnspecified pos then .ok none
  else
    match pySplit '/' (pos.getD "") with
    | c0 :: _ :: _ =>
      match pyInt c0 with
      | .error e => .error e
      | .ok n => .ok (some { start := n - 1 })
    | _ => .ok none

/-- Backtracking step of the regex fragment (\D+)>(\D+) applied to a run of
non digit characters: the split at the last right angle bracket that still
leaves a nonempty remainder, as greedy matching with backtracking does. -/
def splitLastGt : List Char → Option (List Char × List Char)
  | [] => none
  | c :: rest =>
    match splitLastGt rest with
    | some (b, a) => some (c :: b, a)
    | none => if c = '>' ∧ rest ≠ [] then some ([], rest) else none

/-- One anchored attempt of the Python regex c.(\d+)(\D+)>(\D+) at the head
of the list (the dot matches any character except a newline); returns the
three groups.  The digit group is necessarily the maximal digit run (a
shorter one would put a digit in front of the following non digit group),
and the reference / alternate groups come from the greedy last angle
bracket split of the following non digit run. -/
def attemptHgvsC : List Char → Option (List Char × List Char × List Char)
  | c :: d :: rest =>
    if c = 'c' ∧ d ≠ '\n' then
      let digits := rest.takeWhile Char.isDigit
      let after := rest.dropWhile Char.isDigit
      if digits = [] then none
      else
        let run := after.takeWhile (fun ch => !ch.isDigit)
        match splitLastGt run with
        | some (g2, g3) => if g2 = [] then none else some (digits, g2, g3)
        | none => none
    else none
  | _ => none

/-- re.match(".*c.(\d+)(\D+)>(\D+)", s): the greedy leading .* makes the
match start at the rightmost viable position, and it cannot cross a
newline. -/
def matchHgvsCFrom : List Char → Option (List Char × List Char × List Char)
  | [] => none
  | c :: rest =>
    if c = '\n' then none
    else
      match matchHgvsCFrom rest with
      | some g => some g
      | none => attemptHgvsC (c :: rest)

/-- HtslibVariantAnnotationSet.convertLocationHgvsC: parse the HGVS coding
string; on a match with positive position, build the 0 based location with
the flanking reference and alternate fragments. -/
def convertLocationHgvsC (hgvsc : Option String) : Option AlleleLoc :=
  if isUnspecified hgvsc then none
  else
    match matchHgvsCFrom (hgvsc.getD "").toList with
    | some (ds, g2, g3) =>
      let pos : Int := (digitsVal ds : Nat)
      if pos > 0 then
        some { start := pos - 1, referenceSequence := some (String.mk g2),
               alternateSequence := some (String.mk g3) }
      else none
    | none => none

/-- One anchored attempt of the Python regex p.(\D+)(\d+)(\D+) at the head
of the list; each greedy group is forced to the maximal run by the
following group. -/
def attemptHgvsP : List Char → Option (List Char × List Char × List Char)
  | c :: d :: rest =>
    if c = 'p' ∧ d ≠ '\n' then
      let g1 := rest.takeWhile (fun ch => !ch.isDigit)
      let after1 := rest.dropWhile (fun ch => !ch.isDigit)
      if g1 = [] then none
      else
        let g2 := after1.takeWhile Char.isDigit
        let after2 := after1.dropWhile Char.isDigit
        if g2 = [] then none
        else
          let g3 := after2.takeWhile (fun ch => !ch.isDigit)
          if g3 = [] then none else some (g1, g2, g3)
    else none
  | _ => none

/-- re.match(".*p.(\D+)(\d+)(\D+)", s), rightmost viable start. -/
def matchHgvsPFrom : List Char → Option (List Char × List Char × List Char)
  | [] => none
  | c :: rest =>
    if c = '\n' then none
    else
      match matchHgvsPFrom rest with
      | some g => some g
      | none => attemptHgvsP (c :: rest)

/-- HtslibVariantAnnotationSet.convertLocationHgvsP. -/
def convertLocationHgvsP (hgvsp : Option String) : Option AlleleLoc :=
  if isUnspecified hgvsp then none
  else
    match matchHgvsPFrom (hgvsp.getD "").toList with
    | some (g1, g2, g3) =>
      some { start := ((digitsVal g2 : Nat) : Int) - 1,
             referenceSequence := some (String.mk g1),
             alternateSequence := some (String.mk g3) }
    | none => none

/-- HtslibVariantAnnotationSet.addCDSLocation: prefer the HGVS coding
parse; fall back to the raw pair; on an HGVS derived location strip the
fragment annotations. -/
def addCDSLocation (effect : TranscriptEff) (cdnaPos : Option String) :
    Except Err TranscriptEff :=
  let hgvsC := effect.hgvsAnn.transcript
  let e1 :=
    if ¬ isUnspecified hgvsC then
      { effect with CDSLocation := convertLocationHgvsC hgvsC }
    else effect
  match e1.CDSLocation with
  | none =>
    match convertLocation cdnaPos with
    | .error e => .error e
    | .ok loc => .ok { e1 with CDSLocation := loc }
  | some l =>
    let stripped : AlleleLoc := { l with alternateSequence := none, referenceSequence := none }
    .ok { e1 with CDSLocation := some stripped }

/-- HtslibVariantAnnotationSet.addCDNALocation: the raw pair location is
assigned first; when the HGVS coding string also parses, its fragments are
copied onto that location - a None location at that point is an
AttributeError, exactly as in the source. -/
def addCDNALocation (effect : TranscriptEff) (cdnaPos : Option String) :
    Except Err TranscriptEff :=
  let hgvsC := effect.hgvsAnn.transcript
  match convertLocation cdnaPos with
  | .error e => .error e
  | .ok loc =>
    let e1 := { effect with cDNALocation := loc }
    match convertLocationHgvsC hgvsC with
    | some hl =>
      match e1.cDNALocation with
      | none => .error .attributeError
      | some l =>
        let copied : AlleleLoc :=
          { l with alternateSequence := hl.alternateSequence,
                   referenceSequence := hl.referenceSequence }
        .ok { e1 with cDNALocation := some copied }
    | none => .ok e1

/-- HtslibVariantAnnotationSet.addProteinLocation. -/
def addProteinLocation (effect : TranscriptEff) (protPos : Option String) :
    Except Err TranscriptEff :=
  let hgvsP := effect.hgvsAnn.protein
  let e1 :=
    if ¬ isUnspecified hgvsP then
      { effect with proteinLocation := convertLocationHgvsP hgvsP }
    else effect
  match e1.proteinLocation with
  | none =>
    match convertLocation protPos with
    | .error e => .error e
    | .ok loc => .ok { e1 with proteinLocation := loc }
  | some _ => .ok e1

/-- HtslibVariantAnnotationSet.addLocations: CDS, then cDNA, then protein. -/
def addLocations (effect : TranscriptEff) (protPos cdnaPos : Option String) :
    Except Err TranscriptEff :=
  match addCDSLocation effect cdnaPos with
  | .error e => .error e
  | .ok e1 =>
    match addCDNALocation e1 cdnaPos with
    | .error e => .error e
    | .ok e2 => addProteinLocation e2 protPos

/-- HtslibVariantAnnotationSet.convertSeqOntology: split the effect token
on ampersands and resolve each term through the injected ontology lookup
collaborator (soMap, already defaulted to the empty id on unresolved
names). -/
def convertSeqOntology (soMap : String → String) (seqOntStr : String) : List OntTerm :=
  (pySplit '&' seqOntStr).map
    (fun soName =>
      { term := soName, tid := soMap soName, ontologySource := "Sequence Ontology" })

/-- An injective print of a possibly absent string (str(None) prints
None). -/
def pyOptRepr (s : Option String) : String :=
  match s with
  | none => "None"
  | some t => "<" ++ t ++ ">"

/-- Modelled from the spec: getTranscriptEffectId formats the whole
hgvsAnnotation protocol object with "{0}".format(obj).  The rendering of a
protocol element lives in ga4gh.protocol (repository code outside src/);
the spec, section 3, describes this object as the HGVS triple
(genomic / transcript / protein), so the rendering is modelled as an
injective encoding of the whole triple. -/
def pyStrHGVS (h : HgvsAnn) : String :=
  "HGVSAnn(" ++ pyOptRepr h.genomic ++ ", " ++ pyOptRepr h.transcript ++ ", " ++
    pyOptRepr h.protein ++ ")"

/-- AbstractVariantAnnotationSet.getTranscriptEffectId: md5 of the tab
joined format of the alternate bases, the feature id, the printed effect
term list and the printed hgvsAnnotation object. -/
def getTranscriptEffectId (e : TranscriptEff) : String :=
  md5Hex (e.alternateBases ++ "\t" ++ e.featureId ++ "\t" ++
    pyListRepr (e.effects.map (fun t => t.term)) ++ "\t" ++ pyStrHGVS e.hgvsAnn)

/-- HtslibVariantAnnotationSet._createCsqTranscriptEffect: one effect per
ontology term of a CSQ token; all three HGVS fields are set to None. -/
def createCsqTranscriptEffect (soMap : String → String)
    (alt term protPos cdnaPos featureId : String) : Except Err TranscriptEff :=
  let effect : TranscriptEff :=
    { alternateBases := alt, effects := convertSeqOntology soMap term,
      featureId := featureId,
      hgvsAnn := { genomic := none, transcript := none, protein := none } }
  match addLocations effect (some protPos) (some cdnaPos) with
  | .error e => .error e
  | .ok e1 => .ok { e1 with id := getTranscriptEffectId e1, analysisResults := [] }

/-- HtslibVariantAnnotationSet.convertTranscriptEffectCSQ: split the
encoded token into its 19 ordered sub fields (anything else is the
unpacking ValueError), then build one effect per ampersand joined term. -/
def convertTranscriptEffectCSQ (soMap : String → String) (annStr : String)
    (hgvsG : Option String) : Except Err (List TranscriptEff) :=
  match pySplit '|' annStr with
  | [alt, gene, featureId, featureType, effects, cdnaPos, cdsPos, protPos,
     aminos, codons, existingVar, distance, strandVal, sift, polyPhen,
     motifName, motifPos, highInfPos, motifScoreChange] =>
    (pySplit '&' effects).foldlM
      (fun (acc : List TranscriptEff) term =>
        match createCsqTranscriptEffect soMap alt term protPos cdnaPos featureId with
        | .error e => .error e
        | .ok e => .ok (acc ++ [e]))
      []
  | _ => .error (.valueError "unpack CSQ")

/-- HtslibVariantAnnotationSet.convertTranscriptEffectVEP: split the
encoded token into its 23 ordered sub fields; the genomic HGVS field is
the externally supplied argument, transcript and protein HGVS come from
the token. -/
def convertTranscriptEffectVEP (soMap : String → String) (annStr : String)
    (hgvsG : String) : Except Err TranscriptEff :=
  match pySplit '|' annStr with
  | [alt, effects, impact, symbol, geneName, featureType, featureId, trBiotype,
     exon, intron, hgvsC, hgvsP, cdnaPos, cdsPos, protPos, aminos, codons,
     existingVar, distance, strandVal, symbolSource, hgncId, hgvsOffset] =>
    let effect : TranscriptEff :=
      { alternateBases := alt, effects := convertSeqOntology soMap effects,
        featureId := featureId,
        hgvsAnn := { genomic := some hgvsG, transcript := some hgvsC,
                     protein := some hgvsP } }
    (match addLocations effect (some protPos) (some cdnaPos) with
     | .error e => .error e
     | .ok e1 => .ok { e1 with id := getTranscriptEffectId e1, analysisResults := [] })
  | _ => .error (.valueError "unpack ANN VEP")

/-- HtslibVariantAnnotationSet.convertTranscriptEffectSnpEff: split the
encoded token into its 16 ordered sub fields; the genomic HGVS field is
the externally supplied argument. -/
def convertTranscriptEffectSnpEff (soMap : String → String) (annStr : String)
    (hgvsG : String) : Except Err TranscriptEff :=
  match pySplit '|' annStr with
  | [alt, effects, impact, geneName, geneId, featureType, featureId, trBiotype,
     rank, hgvsC, hgvsP, cdnaPos, cdsPos, protPos, distance, errsWarns] =>
    let effect : TranscriptEff :=
      { alternateBases := alt, effects := convertSeqOntology soMap effects,
        featureId := featureId,
        hgvsAnn := { genomic := some hgvsG, transcript := some hgvsC,
                     protein := some hgvsP } }
    (match addLocations effect (some protPos) (some cdnaPos) with
     | .error e => .error e
     | .ok e1 => .ok { e1 with id := getTranscriptEffectId e1, analysisResults := [] })
  | _ => .error (.valueError "unpack ANN SnpEff")

/-- True exactly on a successful Except value. -/
def isOkE {α : Type} (e : Except Err α) : Bool :=
  match e with
  | .ok _ => true
  | .error _ => false

/-- The success predicate of the getVariant scan, phrased on the raw
record: start position equal to the requested one and content hash (of the
record derived reference and alternate bases) equal to the requested
hash. -/
def getVariantMatch (start : Nat) (md5 : String) (r : VRecord) : Bool :=
  decide (r.start = start) &&
    decide (md5 = md5Hex (r.ref ++ pyTupleRepr (r.alts.getD [])))

/-! Concrete instances used by counterexamples and witnesses. -/

/-- A deterministic random machine whose first draw after seeding with 0 is
1 and whose later draws are 0. -/
def cxRng : PyRandom :=
  { seedFn := fun n => n, next := fun st => (if st = 0 then 1 else 0, st + 1) }

/-- A simulated set with density one half over cxRng. -/
def cxSimSet : SimulatedVariantSet :=
  { setId := "sim", randomSeed := 0, numCalls := 1, variantDensity := mkRat 1 2 }

/-- A deterministic random machine drawing 0 forever. -/
def wRng : PyRandom :=
  { seedFn := fun n => n, next := fun st => (0, st + 1) }

/-- A simulated set with density one over wRng. -/
def wSimSet : SimulatedVariantSet :=
  { setId := "sim", randomSeed := 0, numCalls := 1, variantDensity := 1 }

/-- The variant wSimSet emits at position 0. -/
def wVa : GAVariant := (generateVariant wSimSet wRng "r" 0 (wRng.seedFn 0)).fst

/-- The first variant of the wSimSet range query [0, 2). -/
def wVb : GAVariant := (simGetVariants wSimSet wRng "r" 0 2).headD dummyVariant

/-- A minimal record on the given contig with one sample column. -/
def oneRec (chrom : String) : VRecord :=
  { contig := chrom, rid := none, start := 100, stop := 101, ref := "A",
    alts := some ["T"], info := [],
    samples := [("s1", { alleleIndices := [0, 1], phased := false, items := [] })] }

/-- C3: a file whose index declares contigs A and B but which has records
only on A. -/
def c3FileA : VcfFile :=
  { filename := "fA", hasIndex := true, indexChroms := ["A", "B"],
    recs := [("A", [oneRec "A"])], version := "VCFv4.1", formats := [], infos := [],
    headerRecords := [], samples := ["s1"] }

/-- C3: a second file with records on B. -/
def c3FileB : VcfFile :=
  { filename := "fB", hasIndex := true, indexChroms := ["B"],
    recs := [("B", [oneRec "B"])], version := "VCFv4.1", formats := [], infos := [],
    headerRecords := [], samples := ["s1"] }

/-- C1: a file declaring an INFO field DP. -/
def c1FileA : VcfFile :=
  { filename := "fA", hasIndex := true, indexChroms := ["1"],
    recs := [("1", [oneRec "1"])], version := "VCFv4.1", formats := [],
    infos := [{ name := "DP", ftype := "Integer", number := "1", description := "depth" }],
    headerRecords := [], samples := ["s1"] }

/-- C1: a second file on another contig declaring no INFO fields, so its
derived metadata differs from the first. -/
def c1FileB : VcfFile :=
  { filename := "fB", hasIndex := true, indexChroms := ["2"],
    recs := [("2", [oneRec "2"])], version := "VCFv4.1", formats := [], infos := [],
    headerRecords := [], samples := ["s1"] }

/-- C4: a file with sample s1. -/
def c4FileA : VcfFile :=
  { filename := "fA", hasIndex := true, indexChroms := ["1"],
    recs := [("1", [oneRec "1"])], version := "VCFv4.1", formats := [], infos := [],
    headerRecords := [], samples := ["s1"] }

/-- C4: a second file on another contig with a different sample list. -/
def c4FileB : VcfFile :=
  { filename := "fB", hasIndex := true, indexChroms := ["2"],
    recs := [("2", [oneRec "2"])], version := "VCFv4.1", formats := [], infos := [],
    headerRecords := [], samples := ["s1", "s2"] }

/-- C5 witness: the state of a one file build routing contig 1. -/
def c5St : HtsState :=
  { setId := "vs", chromFileMap := [("1", ("u", "i"))],
    metadata := none, callSetNames := ["s1"], annType := none }

/-- C5 witness: the file env resolving every pair to the one file. -/
def c5File : VcfFile :=
  { filename := "f", hasIndex := true, indexChroms := ["1"],
    recs := [("1", [oneRec "1"])], version := "VCFv4.1", formats := [], infos := [],
    headerRecords := [], samples := ["s1"] }

def c5Env : String → String → VcfFile := fun _ _ => c5File

/-- C6: an effect whose transcript HGVS string parses while the raw cDNA
position field is empty. -/
def c6Eff : TranscriptEff :=
  { alternateBases := "A", effects := [], featureId := "f",
    hgvsAnn := { genomic := none, transcript := some "c.123A>T", protein := none } }

/-- C7: two effects agreeing on the four claimed identifier inputs but
differing in the genomic HGVS string. -/
def c7EffA : TranscriptEff :=
  { alternateBases := "T", effects := [], featureId := "feat",
    hgvsAnn := { genomic := some "g1", transcript := some "tr", protein := some "pr" } }

def c7EffB : TranscriptEff :=
  { alternateBases := "T", effects := [], featureId := "feat",
    hgvsAnn := { genomic := some "g2", transcript := some "tr", protein := some "pr" } }

/-- C7 witness: an effect differing from c7EffA only in a location field. -/
def c7EffC : TranscriptEff :=
  { alternateBases := "T", effects := [], featureId := "feat",
    hgvsAnn := { genomic := some "g1", transcript := some "tr", protein := some "pr" },
    cDNALocation := some { start := 4 } }

/-- A constant ontology lookup collaborator. -/
def wSoMap : String → String := fun _ => "SO:0001"

/-- C9 witness: a well formed 19 field CSQ token with two effect terms. -/
def c9CsqTok : String :=
  "A|g|feat|ft|missense&stop_gained|1/2|1/2|1/2|aa|cod|ev|d|1|si|pp|mn|mp|hip|msc"

/-- C9 witness: a well formed 23 field VEP token. -/
def c9VepTok : String :=
  "A|eff|MOD|sym|gn|ft|feat|bt|ex|in|c.5A>T|p.M1T|3/10|3/9|1/3|aa|cod|ev|d|1|src|hg|0"

/-- C9 witness: a well formed 16 field SnpEff token. -/
def c9SnpTok : String :=
  "A|eff|MOD|gn|gid|ft|feat|bt|1/2|c.5A>T|p.M1T|3/10|3/9|1/3|0|wrn"

/-- A placeholder transcript effect. -/
def dummyEff : TranscriptEff :=
  { alternateBases := "", effects := [], featureId := "",
    hgvsAnn := { genomic := none, transcript := none, protein := none } }

/-- C9 witness: the effects produced from the CSQ token. -/
def c9CsqRes : List TranscriptEff :=
  (convertTranscriptEffectCSQ wSoMap c9CsqTok (some "g.x")).toOption.getD []

/-- C9 witness: the effect produced from the VEP token. -/
def c9VepRes : TranscriptEff :=
  (convertTranscriptEffectVEP wSoMap c9VepTok "g.123A>T").toOption.getD dummyEff

/-- C9 witness: the effect produced from the SnpEff token. -/
def c9SnpRes : TranscriptEff :=
  (convertTranscriptEffectSnpEff wSoMap c9SnpTok "g.123A>T").toOption.getD dummyEff

/-! General plumbing lemmas about Except folds and list scans. -/

theorem exBindOk {α β : Type} (a : α) (g : α → Except Err β) :
    (Except.ok a >>= g) = g a := rfl

theorem exBindErr {α β : Type} (e : Err) (g : α → Except Err β) :
    ((Except.error e : Except Err α) >>= g) = .error e := rfl

theorem foldlM_err_shape {γ β : Type} (g : β → γ → Except Err β)
    (P : Err → Prop) (hg : ∀ b c e, g b c = .error e → P e) :
    ∀ (l : List γ) (b : β) (e : Err), l.foldlM g b = .error e → P e := by
  intro l
  induction l with
  | nil =>
    intro b e h
    rw [List.foldlM_nil] at h
    exact absurd h (by simp [pure, Except.pure])
  | cons c cs ih =>
    intro b e h
    rw [List.foldlM_cons] at h
    cases hc : g b c with
    | error e0 =>
      rw [hc, exBindErr] at h
      injection h with h2
      subst h2
      exact hg b c e0 hc
    | ok b1 =>
      rw [hc, exBindOk] at h
      exact ih b1 e h

theorem foldlM_ok_invariant {γ β : Type} (g : β → γ → Except Err β)
    (Q : β → β → Prop) (hrefl : ∀ b, Q b b)
    (htrans : ∀ a b c, Q a b → Q b c → Q a c)
    (hg : ∀ b c b', g b c = .ok b' → Q b b') :
    ∀ (l : List γ) (b b' : β), l.foldlM g b = .ok b' → Q b b' := by
  intro l
  induction l with
  | nil =>
    intro b b' h
    rw [List.foldlM_nil] at h
    have h2 : b = b' := by
      simpa [pure, Except.pure] using h
    subst h2
    exact hrefl b
  | cons c cs ih =>
    intro b b' h
    rw [List.foldlM_cons] at h
    cases hc : g b c with
    | error e0 =>
      rw [hc, exBindErr] at h
      exact absurd h (by simp)
    | ok b1 =>
      rw [hc, exBindOk] at h
      exact htrans b b1 b' (hg b c b1 hc) (ih b1 b' h)

/-! Field effect lemmas for the build steps. -/

theorem chromStep_ok {f : VcfFile} {u ix : String} {st : HtsState} {c : String}
    {st' : HtsState} (h : chromStep f u ix st c = .ok st') :
    st'.setId = st.setId ∧ st'.metadata = st.metadata ∧
    st'.callSetNames = st.callSetNames ∧ st'.annType = st.annType := by
  simp only [chromStep] at h
  split at h
  · exact absurd h (by simp)
  · injection h with h2
    subst h2
    exact ⟨rfl, rfl, rfl, rfl⟩

theorem chromStep_err {f : VcfFile} {u ix : String} {st : HtsState} {c : String}
    {e : Err} (h : chromStep f u ix st c = .error e) :
    ∃ a b, e = .overlapping a b := by
  simp only [chromStep] at h
  split at h
  · injection h with h2
    exact ⟨u, _, h2.symm⟩
  · exact absurd h (by simp)

theorem updateMetadata_fields (st : HtsState) (f : VcfFile) :
    (updateMetadata st f).setId = st.setId ∧
    (updateMetadata st f).callSetNames = st.callSetNames ∧
    (updateMetadata st f).annType = st.annType ∧
    (updateMetadata st f).metadata =
      some (st.metadata.getD (getMetadataFromVcf st.setId f)) := by
  unfold updateMetadata
  cases hm : st.metadata with
  | none => simp [hm]
  | some m => simp [hm]

theorem updateCallSetIds_fields (st : HtsState) (f : VcfFile) :
    (updateCallSetIds st f).setId = st.setId ∧
    (updateCallSetIds st f).metadata = st.metadata ∧
    (updateCallSetIds st f).annType = st.annType ∧
    (updateCallSetIds st f).callSetNames =
      (if st.callSetNames = [] then f.samples else st.callSetNames) := by
  unfold updateCallSetIds
  by_cases hc : st.callSetNames = [] <;> simp [hc]

theorem updateVariantAnnSets_ok {st : HtsState} {f : VcfFile} {u : String}
    {st' : HtsState} (h : updateVariantAnnSets st f u = .ok st') :
    st'.setId = st.setId ∧ st'.metadata = st.metadata ∧
    st'.callSetNames = st.callSetNames := by
  unfold updateVariantAnnSets at h
  split at h
  · injection h with h2
    subst h2
    exact ⟨rfl, rfl, rfl⟩
  · split at h
    · exact absurd h (by simp)
    · split at h
      · exact absurd h (by simp)
      · injection h with h2
        subst h2
        exact ⟨rfl, rfl, rfl⟩
    · injection h with h2
      subst h2
      exact ⟨rfl, rfl, rfl⟩

theorem inferAnnTypeStep_err {acc : Option String} {r : VcfHeaderRecord} {e : Err}
    (h : inferAnnTypeStep acc r = .error e) :
    e = .indexError ∨ ∃ m, e = .valueError m := by
  unfold inferAnnTypeStep at h
  split at h
  · split at h
    · exact absurd h (by simp)
    · split at h
      · split at h
        · injection h with h2
          exact Or.inl h2.symm
        · split at h
          · exact absurd h (by simp)
          · split at h
            · exact absurd h (by simp)
            · injection h with h2
              exact Or.inr ⟨_, h2.symm⟩
      · exact absurd h (by simp)
  · exact absurd h (by simp)

theorem updateVariantAnnSets_err {st : HtsState} {f : VcfFile} {u : String}
    {e : Err} (h : updateVariantAnnSets st f u = .error e) :
    e = .indexError ∨ ∃ m, e = .valueError m := by
  unfold updateVariantAnnSets at h
  split at h
  · exact absurd h (by simp)
  · split at h
    · injection h with h2
      subst h2
      exact foldlM_err_shape inferAnnTypeStep _
        (fun b c e0 hbc => inferAnnTypeStep_err hbc) f.headerRecords none _
        (by assumption)
    · split at h
      · injection h with h2
        exact Or.inr ⟨_, h2.symm⟩
      · exact absurd h (by simp)
    · exact absurd h (by simp)

theorem popFile_ok {st : HtsState} {f : VcfFile} {u ix : String} {st' : HtsState}
    (h : populateFromVariantFile st f u ix = .ok st') :
    st'.setId = st.setId ∧
    st'.metadata = some (st.metadata.getD (getMetadataFromVcf st.setId f)) ∧
    st'.callSetNames = (if st.callSetNames = [] then f.samples else st.callSetNames) := by
  unfold populateFromVariantFile at h
  split at h
  · exact absurd h (by simp)
  · cases hc : f.indexChroms.foldlM (chromStep f u ix) st with
    | error e =>
      rw [hc] at h
      exact absurd h (by simp)
    | ok st1 =>
      rw [hc] at h
      have hf1 := foldlM_ok_invariant (chromStep f u ix)
        (fun a b => b.setId = a.setId ∧ b.metadata = a.metadata ∧
          b.callSetNames = a.callSetNames ∧ b.annType = a.annType)
        (fun b => ⟨rfl, rfl, rfl, rfl⟩)
        (fun a b c hab hbc =>
          ⟨hbc.1.trans hab.1, hbc.2.1.trans hab.2.1,
           hbc.2.2.1.trans hab.2.2.1, hbc.2.2.2.trans hab.2.2.2⟩)
        (fun b c b' hb => chromStep_ok hb)
        f.indexChroms st st1 hc
      obtain ⟨hid1, hmeta1, hcsn1, _⟩ := hf1
      have h2 := updateMetadata_fields st1 f
      have h3 := updateCallSetIds_fields (updateMetadata st1 f) f
      have h4 := updateVariantAnnSets_ok h
      refine ⟨?_, ?_, ?_⟩
      · rw [h4.1, h3.1, h2.1, hid1]
      · rw [h4.2.1, h3.2.1, h2.2.2.2, hmeta1, hid1]
      · rw [h4.2.2, h3.2.2.2, h2.2.1, hcsn1]

theorem popFile_err {st : HtsState} {f : VcfFile} {u ix : String} {e : Err}
    (h : populateFromVariantFile st f u ix = .error e) :
    (∀ s, e ≠ .inconsistentMetadata s) ∧ (∀ s, e ≠ .inconsistentCallSets s) := by
  unfold populateFromVariantFile at h
  split at h
  · injection h with h2
    subst h2
    exact ⟨(fun s hs => nomatch hs), (fun s hs => nomatch hs)⟩
  · cases hc : f.indexChroms.foldlM (chromStep f u ix) st with
    | error e0 =>
      rw [hc] at h
      injection h with h2
      subst h2
      obtain ⟨a, b, hab⟩ := foldlM_err_shape (chromStep f u ix)
        (fun e1 => ∃ a b, e1 = .overlapping a b)
        (fun b c e1 hb => chromStep_err hb) f.indexChroms st e0 hc
      subst hab
      exact ⟨(fun s hs => nomatch hs), (fun s hs => nomatch hs)⟩
    | ok st1 =>
      rw [hc] at h
      rcases updateVariantAnnSets_err h with h2 | ⟨m, h2⟩ <;> subst h2
      · exact ⟨(fun s hs => nomatch hs), (fun s hs => nomatch hs)⟩
      · exact ⟨(fun s hs => nomatch hs), (fun s hs => nomatch hs)⟩

theorem populate_no_inconsistency_err :
    ∀ (files : List FileInput) (st0 : HtsState) (e : Err),
      populateFromFile st0 files = .error e →
      (∀ s, e ≠ .inconsistentMetadata s) ∧ (∀ s, e ≠ .inconsistentCallSets s) := by
  intro files st0 e h
  exact foldlM_err_shape _
    (fun e1 => (∀ s, e1 ≠ .inconsistentMetadata s) ∧ (∀ s, e1 ≠ .inconsistentCallSets s))
    (fun b c e1 hb => popFile_err hb) files st0 e h

theorem populate_preserve :
    ∀ (files : List FileInput) (st st' : HtsState),
      populateFromFile st files = .ok st' →
      st'.setId = st.setId ∧
      (∀ m, st.metadata = some m → st'.metadata = some m) ∧
      (st.callSetNames ≠ [] → st'.callSetNames = st.callSetNames) := by
  intro files st st' h
  unfold populateFromFile at h
  refine foldlM_ok_invariant
    (fun s fi => populateFromVariantFile s fi.file fi.dataUrl fi.indexFile)
    (fun a b => b.setId = a.setId ∧
      (∀ m, a.metadata = some m → b.metadata = some m) ∧
      (a.callSetNames ≠ [] → b.callSetNames = a.callSetNames))
    (fun b => ⟨rfl, fun m hm => hm, fun _ => rfl⟩)
    (fun a b c hab hbc => ?_)
    (fun b c b' hb => ?_)
    files st st' h
  · refine ⟨hbc.1.trans hab.1, fun m hm => hbc.2.1 m (hab.2.1 m hm), fun hne => ?_⟩
    have hb := hab.2.2 hne
    have hcc := hbc.2.2 (by rw [hb]; exact hne)
    rw [hcc, hb]
  · obtain ⟨h1, h2, h3⟩ := popFile_ok hb
    refine ⟨h1, fun m hm => ?_, fun hne => ?_⟩
    · rw [h2, hm]
      rfl
    · rw [h3, if_neg hne]

/-- C1 counterexample: building from two files whose header declared field
sets differ does not fail at all: the build succeeds, keeps only the first
file metadata, and the inconsistent metadata failure surfaces only in the
separate checkConsistency audit. -/
theorem c1_counterexample :
    isOkE (populateFromFile (initState "vs")
      [⟨c1FileA, "uA", "iA"⟩, ⟨c1FileB, "uB", "iB"⟩]) = true ∧
    (populateFromFile (initState "vs")
      [⟨c1FileA, "uA", "iA"⟩, ⟨c1FileB, "uB", "iB"⟩]).map HtsState.metadata =
      .ok (some (getMetadataFromVcf "vs" c1FileA)) ∧
    getMetadataFromVcf "vs" c1FileA ≠ getMetadataFromVcf "vs" c1FileB ∧
    checkConsistency
      ((populateFromFile (initState "vs")
        [⟨c1FileA, "uA", "iA"⟩, ⟨c1FileB, "uB", "iB"⟩]).toOption.getD (initState "vs"))
      (fun u _ => if u = "uA" then c1FileA else c1FileB) =
      .error (.inconsistentMetadata "fB") := by
  refine ⟨by decide, by decide, by decide, by decide⟩

/-- C1 amended: the first contributing file establishes the metadata and
later files never change it during the build; populateFromFile can never
fail with the inconsistent metadata error (that check lives only in the
separate checkConsistency audit). -/
theorem c1_amended_build_metadata (setId : String) (f : FileInput)
    (rest : List FileInput) (st : HtsState)
    (h : populateFromFile (initState setId) (f :: rest) = .ok st) :
    st.metadata = some (getMetadataFromVcf setId f.file) ∧
    ∀ (files : List FileInput) (st0 : HtsState) (fname : String),
      populateFromFile st0 files ≠ .error (.inconsistentMetadata fname) := by
  constructor
  · unfold populateFromFile at h
    rw [List.foldlM_cons] at h
    cases hc : populateFromVariantFile (initState setId) f.file f.dataUrl f.indexFile with
    | error e =>
      rw [hc, exBindErr] at h
      exact absurd h (by simp)
    | ok st1 =>
      rw [hc, exBindOk] at h
      obtain ⟨h1, h2, h3⟩ := popFile_ok hc
      have hm : st1.metadata = some (getMetadataFromVcf setId f.file) := by
        rw [h2]
        rfl
      exact (populate_preserve rest st1 st h).2.1 _ hm
  · intro files st0 fname heq
    exact (populate_no_inconsistency_err files st0 _ heq).1 fname rfl

/-- C1 witness for the amended theorem: a concrete one file build keeps
exactly that file derived metadata. -/
theorem c1_amended_build_metadata_witness :
    (populateFromFile (initState "vs") [⟨c1FileA, "uA", "iA"⟩]).map HtsState.metadata
      = .ok (some (getMetadataFromVcf "vs" c1FileA)) := by
  cases hp : populateFromFile (initState "vs") [⟨c1FileA, "uA", "iA"⟩] with
  | error e =>
    have hok : isOkE (populateFromFile (initState "vs") [⟨c1FileA, "uA", "iA"⟩]) = true := by
      decide
    rw [hp] at hok
    simp [isOkE] at hok
  | ok st =>
    have h := c1_amended_build_metadata "vs" ⟨c1FileA, "uA", "iA"⟩ [] st hp
    simp [Except.map, h.1]

/-- C3: a contig declared in the file index with zero records is still
entered into the routing table (the table write sits outside the record
test in the source), and a later file with records on that contig is then
rejected as overlapping - exactly the spurious error the in code comment
says the record test must prevent; the claim (and the comment) call for
the zero record contig to be skipped. -/
theorem c3_code_bug_zero_record_contig :
    (populateFromFile (initState "vs") [⟨c3FileA, "uA", "iA"⟩]).map
        (fun s => s.chromFileMap.lookup "B") = .ok (some ("uA", "iA")) ∧
    fetchChrom c3FileA "B" = [] ∧
    populateFromFile (initState "vs") [⟨c3FileA, "uA", "iA"⟩, ⟨c3FileB, "uB", "iB"⟩] =
      .error (.overlapping "uB" "B") := by
  refine ⟨by decide, by decide, by decide⟩

/-- C4 counterexample: building from two files with different sample lists
does not fail: the build succeeds with the first file call sets, and the
inconsistent call sets failure surfaces only in the separate
checkConsistency audit. -/
theorem c4_counterexample :
    (populateFromFile (initState "vs")
      [⟨c4FileA, "uA", "iA"⟩, ⟨c4FileB, "uB", "iB"⟩]).map HtsState.callSetNames =
      .ok ["s1"] ∧
    eqAsSets c4FileA.samples c4FileB.samples = false ∧
    checkConsistency
      ((populateFromFile (initState "vs")
        [⟨c4FileA, "uA", "iA"⟩, ⟨c4FileB, "uB", "iB"⟩]).toOption.getD (initState "vs"))
      (fun u _ => if u = "uA" then c4FileA else c4FileB) =
      .error (.inconsistentCallSets "fB") := by
  refine ⟨by decide, by decide, by decide⟩

/-- C4 amended: the first contributing file with a nonempty sample list
establishes the call set list and later files never extend or shrink it
during the build; populateFromFile can never fail with the inconsistent
call sets error (that check lives only in the checkConsistency audit). -/
theorem c4_amended_build_callsets (setId : String) (f : FileInput)
    (rest : List FileInput) (st : HtsState) (hs : f.file.samples ≠ [])
    (h : populateFromFile (initState setId) (f :: rest) = .ok st) :
    st.callSetNames = f.file.samples ∧
    ∀ (files : List FileInput) (st0 : HtsState) (fname : String),
      populateFromFile st0 files ≠ .error (.inconsistentCallSets fname) := by
  constructor
  · unfold populateFromFile at h
    rw [List.foldlM_cons] at h
    cases hc : populateFromVariantFile (initState setId) f.file f.dataUrl f.indexFile with
    | error e =>
      rw [hc, exBindErr] at h
      exact absurd h (by simp)
    | ok st1 =>
      rw [hc, exBindOk] at h
      obtain ⟨h1, h2, h3⟩ := popFile_ok hc
      have hcs : st1.callSetNames = f.file.samples := by
        rw [h3]
        rfl
      have := (populate_preserve rest st1 st h).2.2 (by rw [hcs]; exact hs)
      rw [this, hcs]
  · intro files st0 fname heq
    exact (populate_no_inconsistency_err files st0 _ heq).2 fname rfl

/-- C4 witness for the amended theorem: a concrete one file build registers
exactly that file samples. -/
theorem c4_amended_build_callsets_witness :
    (populateFromFile (initState "vs") [⟨c4FileB, "uB", "iB"⟩]).map HtsState.callSetNames
      = .ok ["s1", "s2"] := by
  cases hp : populateFromFile (initState "vs") [⟨c4FileB, "uB", "iB"⟩] with
  | error e =>
    have hok : isOkE (populateFromFile (initState "vs") [⟨c4FileB, "uB", "iB"⟩]) = true := by
      decide
    rw [hp] at hok
    simp [isOkE] at hok
  | ok st =>
    have h := c4_amended_build_callsets "vs" ⟨c4FileB, "uB", "iB"⟩ [] st (by decide) hp
    simp [Except.map, h.1]
    decide

/-! Lemmas about the simulated generator. -/

theorem genVariant_start (s : SimulatedVariantSet) (rng : PyRandom) (ref : String)
    (pos st : Nat) : (generateVariant s rng ref pos st).fst.start = pos := rfl

theorem simGo_succ (s : SimulatedVariantSet) (rng : PyRandom) (ref : String)
    (i fuel st : Nat) :
    simGetVariantsGo s rng ref i (fuel + 1) st =
      if (rng.next st).fst < s.variantDensity then
        (generateVariant s rng ref i (rng.seedFn (s.randomSeed + i))).fst ::
          simGetVariantsGo s rng ref (i + 1) fuel
            (generateVariant s rng ref i (rng.seedFn (s.randomSeed + i))).snd
      else simGetVariantsGo s rng ref (i + 1) fuel (rng.next st).snd := rfl

theorem simGo_mem (s : SimulatedVariantSet) (rng : PyRandom) (ref : String) :
    ∀ (fuel i st : Nat) (v : GAVariant), v ∈ simGetVariantsGo s rng ref i fuel st →
      v = (generateVariant s rng ref v.start (rng.seedFn (s.randomSeed + v.start))).fst := by
  intro fuel
  induction fuel with
  | zero =>
    intro i st v h
    exact absurd h (by simp [simGetVariantsGo])
  | succ n ih =>
    intro i st v h
    rw [simGo_succ] at h
    split at h
    · rcases List.mem_cons.mp h with h1 | h2
      · rw [h1]
        simp only [genVariant_start]
      · exact ih _ _ _ h2
    · exact ih _ _ _ h

/-- C2 counterexample: over the concrete deterministic random machine
cxRng with density one half, position 1 is emitted by the range query
[0, 2) but not by the range query [1, 2) on the same set - the
presence decision is not a function of (seed, position) alone, because the
density draw continues the running stream of the query instead of using
the per position reseeding. -/
theorem c2_counterexample :
    (simGetVariants cxSimSet cxRng "ref" 0 2).map GAVariant.start = [1] ∧
    (simGetVariants cxSimSet cxRng "ref" 1 2).map GAVariant.start = [] ∧
    ¬ (((1 : Nat) ∈ (simGetVariants cxSimSet cxRng "ref" 0 2).map GAVariant.start) ↔
       ((1 : Nat) ∈ (simGetVariants cxSimSet cxRng "ref" 1 2).map GAVariant.start)) := by
  have hA : (simGetVariants cxSimSet cxRng "ref" 0 2).map GAVariant.start = [1] := by decide
  have hB : (simGetVariants cxSimSet cxRng "ref" 1 2).map GAVariant.start = [] := by decide
  refine ⟨hA, hB, ?_⟩
  rw [hA, hB]
  simp

/-- C2 amended: whenever two range queries over the same simulated set
both emit a variant at the same position, the two emitted variants are
identical (the generator is reseeded from seed + position before
generating); only the presence or absence decision can differ between
overlapping queries. -/
theorem c2_amended_same_position_same_variant (s : SimulatedVariantSet)
    (rng : PyRandom) (ref : String) (p : Nat) (s1 e1 s2 e2 : Nat)
    (v1 v2 : GAVariant)
    (h1 : v1 ∈ simGetVariants s rng ref s1 e1) (h1p : v1.start = p)
    (h2 : v2 ∈ simGetVariants s rng ref s2 e2) (h2p : v2.start = p) :
    v1 = v2 := by
  have g1 := simGo_mem s rng ref (e1 - s1) s1 (rng.seedFn s.randomSeed) v1 h1
  have g2 := simGo_mem s rng ref (e2 - s2) s2 (rng.seedFn s.randomSeed) v2 h2
  rw [h1p] at g1
  rw [h2p] at g2
  rw [g1, g2]

/-- C2 witness: over wRng with density one, position 0 is emitted by both
[0, 1) and [0, 2) and the two emitted variants coincide. -/
theorem c2_amended_same_position_same_variant_witness : wVa = wVb := by
  have e1 : simGetVariants wSimSet wRng "r" 0 1 = [wVa] := by decide
  have e2 : simGetVariants wSimSet wRng "r" 0 2 =
      wVb :: (simGetVariants wSimSet wRng "r" 0 2).tail := by decide
  refine c2_amended_same_position_same_variant wSimSet wRng "r" 0 0 1 0 2 wVa wVb
    ?_ (by decide) ?_ (by decide)
  · rw [e1]
    exact List.mem_singleton_self wVa
  · rw [e2]
    exact List.mem_cons_self wVb _

theorem genSimCalls_density (s : SimulatedVariantSet) (d : Rat) (rng : PyRandom) :
    ∀ (l : List String) (st : Nat),
      genSimCalls { s with variantDensity := d } rng l st = genSimCalls s rng l st := by
  intro l
  induction l with
  | nil => intro st; rfl
  | cons n rest ih =>
    intro st
    simp only [genSimCalls, ih, simCallSetId]

theorem generateVariant_density (s : SimulatedVariantSet) (d : Rat)
    (rng : PyRandom) (ref : String) (pos st : Nat) :
    generateVariant { s with variantDensity := d } rng ref pos st =
      generateVariant s rng ref pos st := by
  simp only [generateVariant, genSimCalls_density, simCallSetNames]

/-- C10: SimulatedVariantSet.getVariant is total, returns a variant whose
start is the requested position, is unchanged under any density and any
requested content hash (neither is consulted), and succeeds even at a
position that a zero density range query over the same set omits. -/
theorem c10_sim_point_lookup (s : SimulatedVariantSet) (rng : PyRandom)
    (ref : String) (start : Nat) (md5a md5b : String) (d : Rat) :
    (simGetVariant s rng ref start md5a).start = start ∧
    simGetVariant s rng ref start md5a =
      simGetVariant { s with variantDensity := d } rng ref start md5b ∧
    ((∀ stt : Nat, 0 ≤ (rng.next stt).fst) →
      simGetVariants { s with variantDensity := 0 } rng ref start (start + 1) = []) := by
  refine ⟨rfl, ?_, fun h => ?_⟩
  · exact congrArg Prod.fst
      (generateVariant_density s d rng ref start (rng.seedFn (s.randomSeed + start))).symm
  · unfold simGetVariants
    have h1 : start + 1 - start = 1 := by omega
    rw [h1, simGo_succ, if_neg]
    · rfl
    · exact not_lt.mpr (h _)

/-- C10 witness at a concrete set, machine, and position. -/
theorem c10_sim_point_lookup_witness :
    (simGetVariant wSimSet wRng "r" 7 "h1").start = 7 ∧
    simGetVariant wSimSet wRng "r" 7 "h1" =
      simGetVariant { wSimSet with variantDensity := 0 } wRng "r" 7 "h2" ∧
    simGetVariants { wSimSet with variantDensity := 0 } wRng "r" 7 8 = [] := by
  have h := c10_sim_point_lookup wSimSet wRng "r" 7 "h1" "h2" 0
  exact ⟨h.1, h.2.1, h.2.2 (fun stt => by simp [wRng])⟩

/-- C6: with a parsing transcript HGVS string and an empty raw cDNA
position, addCDNALocation (and hence addLocations) dereferences the None
cDNA location and raises, instead of leaving the location unset as the
claim states. -/
theorem c6_code_bug_none_location :
    addCDNALocation c6Eff (some "") = .error .attributeError ∧
    addLocations c6Eff (some "") (some "") = .error .attributeError := by
  refine ⟨by decide, by decide⟩

/-- C7 counterexample: two effects agreeing on the alternate allele, the
feature id, the effect term list and the transcript HGVS string, that
differ only in the genomic HGVS string, get different identifiers: the
identifier hashes the printed whole hgvsAnnotation object, not just its
transcript component. -/
theorem c7_counterexample :
    c7EffA.alternateBases = c7EffB.alternateBases ∧
    c7EffA.featureId = c7EffB.featureId ∧
    c7EffA.effects.map OntTerm.term = c7EffB.effects.map OntTerm.term ∧
    c7EffA.hgvsAnn.transcript = c7EffB.hgvsAnn.transcript ∧
    getTranscriptEffectId c7EffA ≠ getTranscriptEffectId c7EffB := by
  refine ⟨rfl, rfl, rfl, rfl, by decide⟩

/-- C7 amended: the transcript effect identifier is a deterministic
function of the alternate allele string, the feature id, the ordered
effect term list and the whole HGVS triple; effects agreeing on those
receive equal identifiers whatever their other fields. -/
theorem c7_amended_id_determined (e1 e2 : TranscriptEff)
    (h1 : e1.alternateBases = e2.alternateBases)
    (h2 : e1.featureId = e2.featureId)
    (h3 : e1.effects.map OntTerm.term = e2.effects.map OntTerm.term)
    (h4 : e1.hgvsAnn = e2.hgvsAnn) :
    getTranscriptEffectId e1 = getTranscriptEffectId e2 := by
  unfold getTranscriptEffectId
  rw [h1, h2, h3, h4]

/-- C7 witness: two effects differing only in a location field share the
identifier. -/
theorem c7_amended_id_determined_witness :
    getTranscriptEffectId c7EffA = getTranscriptEffectId c7EffC :=
  c7_amended_id_determined c7EffA c7EffC rfl rfl rfl rfl

/-! Lemmas about convertVariant and the getVariant scan. -/

theorem convertVariant_ok_fields {st : HtsState} {r : VRecord} {ns : List String}
    {v : GAVariant} (h : convertVariant st r ns = .ok v) :
    v.referenceBases = r.ref ∧ v.alternateBases = r.alts.getD [] ∧ v.start = r.start := by
  simp only [convertVariant] at h
  split at h
  · exact absurd h (by simp)
  · injection h with h2
    subst h2
    exact ⟨rfl, rfl, rfl⟩

theorem convertVariant_ok_hash {st : HtsState} {r : VRecord} {ns : List String}
    {v : GAVariant} (h : convertVariant st r ns = .ok v) :
    hashVariant v = md5Hex (r.ref ++ pyTupleRepr (r.alts.getD [])) := by
  obtain ⟨h1, h2, _⟩ := convertVariant_ok_fields h
  unfold hashVariant
  rw [h1, h2]

theorem getVariantScan_find (st : HtsState) (start : Nat) (md5 : String) :
    ∀ (l : List VRecord),
      (∀ r ∈ l, r.start ≤ start) →
      (∀ r ∈ l, isOkE (convertVariant st r st.callSetNames) = true) →
      getVariantScan st start md5 l =
        (match l.find? (getVariantMatch start md5) with
         | some r => convertVariant st r st.callSetNames
         | none => .error .objectNotFound) := by
  intro l
  induction l with
  | nil => intro _ _; rfl
  | cons r rs ih =>
    intro hle hok
    have hokr := hok r (List.mem_cons_self r rs)
    cases hc : convertVariant st r st.callSetNames with
    | error e =>
      rw [hc] at hokr
      simp [isOkE] at hokr
    | ok v =>
      have hh := convertVariant_ok_hash hc
      simp only [getVariantScan, hc]
      by_cases hm : getVariantMatch start md5 r = true
      · have hm2 : r.start = start ∧ md5 = hashVariant v := by
          have hm3 := hm
          simp only [getVariantMatch, Bool.and_eq_true, decide_eq_true_eq] at hm3
          exact ⟨hm3.1, by rw [hh]; exact hm3.2⟩
        rw [if_pos hm2, List.find?_cons_of_pos _ hm]
        exact hc.symm
      · have hm2 : ¬ (r.start = start ∧ md5 = hashVariant v) := by
          intro hand
          apply hm
          simp only [getVariantMatch, Bool.and_eq_true, decide_eq_true_eq]
          exact ⟨hand.1, by rw [← hh]; exact hand.2⟩
        rw [if_neg hm2,
          if_neg (Nat.not_lt.mpr (hle r (List.mem_cons_self r rs))),
          List.find?_cons_of_neg _ (by simpa using hm)]
        exact ih (fun r2 h2 => hle r2 (List.mem_cons_of_mem _ h2))
          (fun r2 h2 => hok r2 (List.mem_cons_of_mem _ h2))

/-- C5: file backed getVariant fails object not found when the reference
name is not in the routing table; otherwise it returns the conversion of
the first fetched record whose start equals the requested one and whose
recomputed content hash equals the requested one, and fails object not
found when the scan is exhausted (a fetched record can never start past
the requested position, so the early exit branch of the loop cannot
return anything else).  The hypothesis states that every fetched record
carries all requested sample columns, which the pysam reader guarantees. -/
theorem c5_getVariant_first_match (st : HtsState) (env : String → String → VcfFile)
    (refName : String) (start : Nat) (md5 : String)
    (hok : ∀ fk, st.chromFileMap.lookup refName = some fk →
      ∀ r ∈ fetchRange (env fk.fst fk.snd) refName start (start + 1),
        isOkE (convertVariant st r st.callSetNames) = true) :
    getVariant st env refName start md5 =
      (match st.chromFileMap.lookup refName with
       | none => .error .objectNotFound
       | some fk =>
         match (fetchRange (env fk.fst fk.snd) refName start (start + 1)).find?
             (getVariantMatch start md5) with
         | some r => convertVariant st r st.callSetNames
         | none => .error .objectNotFound) := by
  cases hl : st.chromFileMap.lookup refName with
  | none => simp [getVariant, hl]
  | some fk =>
    simp only [getVariant, hl]
    refine getVariantScan_find st start md5 _ ?_ (hok fk hl)
    intro r hr
    unfold fetchRange at hr
    have hmem := List.mem_filter.mp hr
    have hp := of_decide_eq_true hmem.2
    exact Nat.lt_succ_iff.mp hp.1

/-- C5 witness: in a concrete one record store the lookup at the record
start with its content hash returns that record converted. -/
theorem c5_getVariant_first_match_witness :
    getVariant c5St c5Env "1" 100 (md5Hex ("A" ++ pyTupleRepr ["T"])) =
      convertVariant c5St (oneRec "1") c5St.callSetNames := by
  have hyp : ∀ fk, c5St.chromFileMap.lookup "1" = some fk →
      ∀ r ∈ fetchRange (c5Env fk.fst fk.snd) "1" 100 101,
        isOkE (convertVariant c5St r c5St.callSetNames) = true := by
    intro fk hfk
    have hfk2 : fk = ("u", "i") := by
      have : some ("u", "i") = some fk := by
        rw [← hfk]
        decide
      injection this with h2
      exact h2.symm
    subst hfk2
    decide
  have h := c5_getVariant_first_match c5St c5Env "1" 100
    (md5Hex ("A" ++ pyTupleRepr ["T"])) hyp
  rw [h]
  decide

/-! The location recovery steps never touch the HGVS triple. -/

theorem addCDSLocation_hgvs {e : TranscriptEff} {p : Option String}
    {e1 : TranscriptEff} (h : addCDSLocation e p = .ok e1) :
    e1.hgvsAnn = e.hgvsAnn := by
  simp only [addCDSLocation] at h
  split at h
  · split at h
    · exact absurd h (by simp)
    · injection h with h2
      subst h2
      split <;> rfl
  · injection h with h2
    subst h2
    split <;> rfl

theorem addCDNALocation_hgvs {e : TranscriptEff} {p : Option String}
    {e1 : TranscriptEff} (h : addCDNALocation e p = .ok e1) :
    e1.hgvsAnn = e.hgvsAnn := by
  simp only [addCDNALocation] at h
  split at h
  · exact absurd h (by simp)
  · split at h
    · split at h
      · exact absurd h (by simp)
      · injection h with h2
        subst h2
        rfl
    · injection h with h2
      subst h2
      rfl

theorem addProteinLocation_hgvs {e : TranscriptEff} {p : Option String}
    {e1 : TranscriptEff} (h : addProteinLocation e p = .ok e1) :
    e1.hgvsAnn = e.hgvsAnn := by
  simp only [addProteinLocation] at h
  split at h
  · split at h
    · exact absurd h (by simp)
    · injection h with h2
      subst h2
      split <;> rfl
  · injection h with h2
    subst h2
    split <;> rfl

theorem addLocations_hgvs {e : TranscriptEff} {pp cp : Option String}
    {e1 : TranscriptEff} (h : addLocations e pp cp = .ok e1) :
    e1.hgvsAnn = e.hgvsAnn := by
  simp only [addLocations] at h
  split at h
  · exact absurd h (by simp)
  · next ea hea =>
    split at h
    · exact absurd h (by simp)
    · next eb heb =>
      exact (addProteinLocation_hgvs h).trans
        ((addCDNALocation_hgvs heb).trans (addCDSLocation_hgvs hea))

theorem createCsq_ok_genomic {soMap : String → String}
    {alt term pp cp fid : String} {e : TranscriptEff}
    (h : createCsqTranscriptEffect soMap alt term pp cp fid = .ok e) :
    e.hgvsAnn.genomic = none := by
  simp only [createCsqTranscriptEffect] at h
  split at h
  · exact absurd h (by simp)
  · next e1 he1 =>
    injection h with h2
    subst h2
    have hp := addLocations_hgvs he1
    show e1.hgvsAnn.genomic = none
    rw [hp]

theorem csqFold_all {γ : Type} (P : TranscriptEff → Prop)
    (g : γ → Except Err TranscriptEff)
    (hg : ∀ c e, g c = .ok e → P e) :
    ∀ (l : List γ) (acc effs : List TranscriptEff),
      (∀ e ∈ acc, P e) →
      l.foldlM (fun acc2 c =>
        (match g c with
         | .error e => .error e
         | .ok e => .ok (acc2 ++ [e]) : Except Err (List TranscriptEff))) acc = .ok effs →
      ∀ e ∈ effs, P e := by
  intro l
  induction l with
  | nil =>
    intro acc effs hacc h
    rw [List.foldlM_nil] at h
    have h2 : acc = effs := by simpa [pure, Except.pure] using h
    subst h2
    exact hacc
  | cons c cs ih =>
    intro acc effs hacc h
    rw [List.foldlM_cons] at h
    cases hc : g c with
    | error e0 =>
      rw [hc] at h
      exact absurd h (by simp [Bind.bind, Except.bind])
    | ok e0 =>
      rw [hc] at h
      refine ih (acc ++ [e0]) effs ?_ h
      intro e he
      rcases List.mem_append.mp he with h1 | h1
      · exact hacc e h1
      · rw [List.mem_singleton.mp h1]
        exact hg c e0 hc

/-- C9: every effect produced by the CSQ parser has the genomic HGVS field
unset, whatever the token and the supplied genomic HGVS argument; every
effect produced by the VEP and SnpEff parsers carries the supplied genomic
HGVS value. -/
theorem c9_genomic_hgvs (soMap : String → String) :
    (∀ (annStr : String) (hgvsG : Option String) (effs : List TranscriptEff),
      convertTranscriptEffectCSQ soMap annStr hgvsG = .ok effs →
      ∀ e ∈ effs, e.hgvsAnn.genomic = none) ∧
    (∀ (annStr hgvsG : String) (e : TranscriptEff),
      convertTranscriptEffectVEP soMap annStr hgvsG = .ok e →
      e.hgvsAnn.genomic = some hgvsG) ∧
    (∀ (annStr hgvsG : String) (e : TranscriptEff),
      convertTranscriptEffectSnpEff soMap annStr hgvsG = .ok e →
      e.hgvsAnn.genomic = some hgvsG) := by
  refine ⟨?_, ?_, ?_⟩
  · intro annStr hgvsG effs h e he
    unfold convertTranscriptEffectCSQ at h
    split at h
    · exact csqFold_all _ _
        (fun c e0 hc => createCsq_ok_genomic hc) _ [] effs (by simp) h e he
    · exact absurd h (by simp)
  · intro annStr hgvsG e h
    simp only [convertTranscriptEffectVEP] at h
    split at h
    · split at h
      · exact absurd h (by simp)
      · next e1 he1 =>
        injection h with h2
        subst h2
        have hp := addLocations_hgvs he1
        show e1.hgvsAnn.genomic = some hgvsG
        rw [hp]
    · exact absurd h (by simp)
  · intro annStr hgvsG e h
    simp only [convertTranscriptEffectSnpEff] at h
    split at h
    · split at h
      · exact absurd h (by simp)
      · next e1 he1 =>
        injection h with h2
        subst h2
        have hp := addLocations_hgvs he1
        show e1.hgvsAnn.genomic = some hgvsG
        rw [hp]
    · exact absurd h (by simp)

/-- C9 witness: concrete well formed tokens for all three pipelines. -/
theorem c9_genomic_hgvs_witness :
    (c9CsqRes.headD dummyEff).hgvsAnn.genomic = none ∧
    c9VepRes.hgvsAnn.genomic = some "g.123A>T" ∧
    c9SnpRes.hgvsAnn.genomic = some "g.123A>T" := by
  obtain ⟨hcsq, hvep, hsnp⟩ := c9_genomic_hgvs wSoMap
  refine ⟨?_, ?_, ?_⟩
  · have he : convertTranscriptEffectCSQ wSoMap c9CsqTok (some "g.x") = .ok c9CsqRes := by
      decide
    have hm : c9CsqRes = (c9CsqRes.headD dummyEff) :: c9CsqRes.tail := by decide
    refine hcsq c9CsqTok (some "g.x") c9CsqRes he _ ?_
    rw [hm]
    exact List.mem_cons_self _ _
  · have he : convertTranscriptEffectVEP wSoMap c9VepTok "g.123A>T" = .ok c9VepRes := by
      decide
    exact hvep c9VepTok "g.123A>T" c9VepRes he
  · have he : convertTranscriptEffectSnpEff wSoMap c9SnpTok "g.123A>T" = .ok c9SnpRes := by
      decide
    exact hsnp c9SnpTok "g.123A>T" c9SnpRes he

/-! Lemmas about the HGVS coding regex model. -/

theorem takeWhile_append_of_all {p : Char → Bool} :
    ∀ (xs ys : List Char), (∀ x ∈ xs, p x = true) →
      (xs ++ ys).takeWhile p = xs ++ ys.takeWhile p := by
  intro xs
  induction xs with
  | nil => intro ys _; rfl
  | cons a l ih =>
    intro ys h
    rw [List.cons_append, List.takeWhile_cons, if_pos (h a (List.mem_cons_self a l)),
      ih ys (fun x hx => h x (List.mem_cons_of_mem _ hx)), List.cons_append]

theorem dropWhile_append_of_all {p : Char → Bool} :
    ∀ (xs ys : List Char), (∀ x ∈ xs, p x = true) →
      (xs ++ ys).dropWhile p = ys.dropWhile p := by
  intro xs
  induction xs with
  | nil => intro ys _; rfl
  | cons a l ih =>
    intro ys h
    rw [List.cons_append, List.dropWhile_cons, if_pos (h a (List.mem_cons_self a l)),
      ih ys (fun x hx => h x (List.mem_cons_of_mem _ hx))]

theorem takeWhile_of_all {p : Char → Bool} :
    ∀ (xs : List Char), (∀ x ∈ xs, p x = true) → xs.takeWhile p = xs := by
  intro xs
  induction xs with
  | nil => intro _; rfl
  | cons a l ih =>
    intro h
    rw [List.takeWhile_cons, if_pos (h a (List.mem_cons_self a l)),
      ih (fun x hx => h x (List.mem_cons_of_mem _ hx))]

theorem splitLastGt_none : ∀ (A : List Char), '>' ∉ A → splitLastGt A = none := by
  intro A
  induction A with
  | nil => intro _; rfl
  | cons c rest ih =>
    intro h
    have h1 : '>' ∉ rest := fun hr => h (List.mem_cons_of_mem _ hr)
    have h2 : ¬ (c = '>' ∧ rest ≠ []) := by
      intro hand
      exact h (hand.1 ▸ List.mem_cons_self c rest)
    simp only [splitLastGt, ih h1]
    rw [if_neg h2]

theorem splitLastGt_append (R A : List Char) (hA : '>' ∉ A) (hAne : A ≠ []) :
    splitLastGt (R ++ '>' :: A) = some (R, A) := by
  induction R with
  | nil =>
    rw [List.nil_append]
    simp only [splitLastGt, splitLastGt_none A hA]
    simp [hAne]
  | cons r R' ih =>
    rw [List.cons_append]
    simp only [splitLastGt, ih]

theorem attemptHgvsC_head_ne {c : Char} {l : List Char} (h : c ≠ 'c') :
    attemptHgvsC (c :: l) = none := by
  cases l with
  | nil => rfl
  | cons d rest =>
    simp only [attemptHgvsC]
    rw [if_neg (fun hand => h hand.1)]

theorem matchHgvsCFrom_cons (c : Char) (l : List Char) :
    matchHgvsCFrom (c :: l) =
      if c = '\n' then none
      else
        match matchHgvsCFrom l with
        | some g => some g
        | none => attemptHgvsC (c :: l) := rfl

theorem matchFrom_skip {c : Char} {l : List Char} (hnl : c ≠ '\n')
    (ha : attemptHgvsC (c :: l) = none) :
    matchHgvsCFrom (c :: l) = matchHgvsCFrom l := by
  rw [matchHgvsCFrom_cons, if_neg hnl]
  cases hm : matchHgvsCFrom l with
  | some g => rfl
  | none => rw [ha]

theorem matchFrom_none_noDigit : ∀ (l : List Char),
    (∀ ch ∈ l, ch.isDigit = false) → matchHgvsCFrom l = none := by
  intro l
  induction l with
  | nil => intro _; rfl
  | cons c rest ih =>
    intro h
    by_cases hc : c = '\n'
    · rw [matchHgvsCFrom_cons, if_pos hc]
    · have hrest : ∀ ch ∈ rest, ch.isDigit = false :=
        fun ch hch => h ch (List.mem_cons_of_mem _ hch)
      have hatt : attemptHgvsC (c :: rest) = none := by
        by_cases hcc : c = 'c'
        · cases rest with
          | nil => rfl
          | cons d u =>
            have hu : u.takeWhile Char.isDigit = [] := by
              cases u with
              | nil => rfl
              | cons x xs =>
                rw [List.takeWhile_cons, if_neg]
                rw [hrest x (by simp)]
                simp
            simp only [attemptHgvsC]
            split
            · simp [hu]
            · rfl
        · exact attemptHgvsC_head_ne hcc
      rw [matchFrom_skip hc hatt]
      exact ih hrest

theorem matchFrom_digit_skip : ∀ (D l : List Char),
    (∀ ch ∈ D, ch.isDigit = true) → matchHgvsCFrom (D ++ l) = matchHgvsCFrom l := by
  intro D
  induction D with
  | nil => intro l _; rfl
  | cons d D' ih =>
    intro l h
    have hd := h d (List.mem_cons_self d D')
    have hdne : d ≠ '\n' := by
      intro he
      rw [he] at hd
      exact absurd hd (by decide)
    have hdnc : d ≠ 'c' := by
      intro he
      rw [he] at hd
      exact absurd hd (by decide)
    rw [List.cons_append, matchFrom_skip hdne (attemptHgvsC_head_ne hdnc),
      ih l (fun ch hch => h ch (List.mem_cons_of_mem _ hch))]

theorem matchFrom_prepend : ∀ (P l : List Char) (g : List Char × List Char × List Char),
    (∀ ch ∈ P, ch ≠ '\n') → matchHgvsCFrom l = some g →
    matchHgvsCFrom (P ++ l) = some g := by
  intro P
  induction P with
  | nil => intro l g _ h; exact h
  | cons p P' ih =>
    intro l g hP h
    rw [List.cons_append, matchHgvsCFrom_cons, if_neg (hP p (List.mem_cons_self _ _)),
      ih l g (fun ch hch => hP ch (List.mem_cons_of_mem _ hch)) h]

theorem attemptHgvsC_core (D R A : List Char)
    (hD : D ≠ []) (hDd : ∀ ch ∈ D, ch.isDigit = true)
    (hR : R ≠ []) (hRd : ∀ ch ∈ R, ch.isDigit = false)
    (hA : A ≠ []) (hAd : ∀ ch ∈ A, ch.isDigit = false) (hAgt : '>' ∉ A) :
    attemptHgvsC ('c' :: '.' :: (D ++ (R ++ '>' :: A))) = some (D, R, A) := by
  have h1 : (D ++ (R ++ '>' :: A)).takeWhile Char.isDigit = D := by
    rw [takeWhile_append_of_all D _ hDd]
    cases R with
    | nil => exact absurd rfl hR
    | cons r R' =>
      rw [List.cons_append, List.takeWhile_cons, if_neg]
      · rw [List.append_nil]
      · rw [hRd r (List.mem_cons_self r R')]
        simp
  have h2 : (D ++ (R ++ '>' :: A)).dropWhile Char.isDigit = R ++ '>' :: A := by
    rw [dropWhile_append_of_all D _ hDd]
    cases R with
    | nil =>
      rw [List.nil_append, List.dropWhile_cons, if_neg]
      decide
    | cons r R' =>
      rw [List.cons_append, List.dropWhile_cons, if_neg]
      rw [hRd r (List.mem_cons_self r R')]
      simp
  have h3 : (R ++ '>' :: A).takeWhile (fun ch => !ch.isDigit) = R ++ '>' :: A := by
    apply takeWhile_of_all
    intro x hx
    rcases List.mem_append.mp hx with hx1 | hx1
    · rw [hRd x hx1]
      rfl
    · rcases List.mem_cons.mp hx1 with hx2 | hx2
      · rw [hx2]
        decide
      · rw [hAd x hx2]
        rfl
  simp only [attemptHgvsC]
  rw [if_pos (by decide), h1, h2, h3, if_neg hD]
  simp only [splitLastGt_append R A hAgt hA]
  rw [if_neg hR]

theorem matchHgvsCFrom_core (D R A : List Char)
    (hD : D ≠ []) (hDd : ∀ ch ∈ D, ch.isDigit = true)
    (hR : R ≠ []) (hRd : ∀ ch ∈ R, ch.isDigit = false)
    (hA : A ≠ []) (hAd : ∀ ch ∈ A, ch.isDigit = false) (hAgt : '>' ∉ A) :
    matchHgvsCFrom ('c' :: '.' :: (D ++ (R ++ '>' :: A))) = some (D, R, A) := by
  have htail : matchHgvsCFrom ('.' :: (D ++ (R ++ '>' :: A))) = none := by
    rw [matchFrom_skip (by decide) (attemptHgvsC_head_ne (by decide)),
      matchFrom_digit_skip D _ hDd]
    apply matchFrom_none_noDigit
    intro ch hch
    rcases List.mem_append.mp hch with h1 | h1
    · exact hRd ch h1
    · rcases List.mem_cons.mp h1 with h2 | h2
      · rw [h2]
        decide
      · exact hAd ch h2
  rw [matchHgvsCFrom_cons, if_neg (by decide), htail]
  exact attemptHgvsC_core D R A hD hDd hR hRd hA hAd hAgt

theorem toList_mk (l : List Char) : (String.mk l).toList = l := rfl

theorem convertLocationHgvsC_some (s : String) (h : s ≠ "") :
    convertLocationHgvsC (some s) =
      (match matchHgvsCFrom s.toList with
       | some (ds, g2, g3) =>
         if ((digitsVal ds : Nat) : Int) > 0 then
           some { start := ((digitsVal ds : Nat) : Int) - 1,
                  referenceSequence := some (String.mk g2),
                  alternateSequence := some (String.mk g3) }
         else none
       | none => none) := by
  unfold convertLocationHgvsC
  rw [if_neg]
  · rfl
  · simp [isUnspecified, h]

/-- C8 counterexample: on the instance prefix empty, n = 123, R = A and
A = T>G of the claimed form, the parser returns the fragments A>T and G
(the greedy backtracking picks the last angle bracket), not the fragments
A and T>G the claim requires. -/
theorem c8_counterexample :
    convertLocationHgvsC (some "c.123A>T>G") =
      some { start := 122, referenceSequence := some "A>T",
             alternateSequence := some "G" } ∧
    convertLocationHgvsC (some "c.123A>T>G") ≠
      some { start := 122, referenceSequence := some "A",
             alternateSequence := some "T>G" } := by
  refine ⟨by decide, by decide⟩

/-- C8 amended: for every newline free prefix, nonempty digit run with
positive value, nonempty digit free reference fragment, and nonempty digit
free alternate fragment containing no right angle bracket, the parser
returns the zero based position with exactly those fragments. -/
theorem c8_amended_parse (P D R A : List Char)
    (hP : ∀ ch ∈ P, ch ≠ '\n')
    (hD : D ≠ []) (hDd : ∀ ch ∈ D, ch.isDigit = true) (hval : 0 < digitsVal D)
    (hR : R ≠ []) (hRd : ∀ ch ∈ R, ch.isDigit = false)
    (hA : A ≠ []) (hAd : ∀ ch ∈ A, ch.isDigit = false) (hAgt : '>' ∉ A) :
    convertLocationHgvsC (some (String.mk (P ++ 'c' :: '.' :: (D ++ (R ++ '>' :: A))))) =
      some { start := ((digitsVal D : Nat) : Int) - 1,
             referenceSequence := some (String.mk R),
             alternateSequence := some (String.mk A) } := by
  have hne : String.mk (P ++ 'c' :: '.' :: (D ++ (R ++ '>' :: A))) ≠ "" := by
    intro h
    have h2 := congrArg String.data h
    simp at h2
  have hm := matchFrom_prepend P _ _ hP
    (matchHgvsCFrom_core D R A hD hDd hR hRd hA hAd hAgt)
  rw [convertLocationHgvsC_some _ hne]
  simp only [toList_mk, hm]
  rw [if_pos (by exact_mod_cast hval)]

/-- C8 witness: the concrete instance c.123A>T of the amended statement. -/
theorem c8_amended_parse_witness :
    convertLocationHgvsC
      (some (String.mk (([] : List Char) ++ 'c' :: '.' ::
        (['1', '2', '3'] ++ (['A'] ++ '>' :: ['T']))))) =
      some { start := ((digitsVal ['1', '2', '3'] : Nat) : Int) - 1,
             referenceSequence := some (String.mk ['A']),
             alternateSequence := some (String.mk ['T']) } :=
  c8_amended_parse [] ['1', '2', '3'] ['A'] ['T'] (by decide) (by decide)
    (by decide) (by decide) (by decide) (by decide) (by decide) (by decide)
    (by decide)
